import Mathlib

/-!
# Verification of the DNSSEC layer of skydns2 (src/dnssec.go)

A shallow embedding of `src/dnssec.go`.  Go byte values are `Nat` with explicit
`% 256` / `% 4294967296` where overflow matters; Go maps are association lists;
the concurrency of the signature cache and of the single-flight coordinator is
modelled as sequential state passing.  External collaborators (the SHA-1 name
hasher `dns.HashName`, the cryptographic core of `dns.RRSIG.Sign`, the message
size estimate `Msg.Len`) are parameters of the embedding; the byte-level and
field-level disciplines that surround them (Go `encoding/base32` HexEncoding,
the header fields `RRSIG.Sign` copies from the record set, and
`RRSIG.ValidityPeriod` of the dns library) are embedded concretely.
-/

/-! ## Hash-space arithmetic: `byteArith` (src/dnssec.go lines 257-277)

Go iterates from the last byte towards the first, so the embedding works on the
reversed (little-endian) list and reverses back.  Note the control flow of the
Go source: when `x` is true and the increment loop runs off the front of the
slice (every byte was 255 and has been set to 0), execution falls through into
the decrement loop, which then turns every byte back into 255. -/

/-- The decrement loop of `byteArith` on a little-endian byte list: borrow
propagates while bytes are 0. -/
def decLE : List Nat → List Nat
  | [] => []
  | b :: rest => if b = 0 then 255 :: decLE rest else (b - 1) :: rest

/-- The increment loop of `byteArith` on a little-endian byte list.  The `Bool`
records whether the loop exited via `return` (it found a byte below 255);
`false` means it fell off the end with every byte set to 0. -/
def incLoop : List Nat → List Nat × Bool
  | [] => ([], false)
  | b :: rest =>
      if b = 255 then
        let r := incLoop rest
        (0 :: r.1, r.2)
      else ((b + 1) :: rest, true)

/-- `byteArith` on a little-endian byte list.  For `x = true`, if the increment
loop falls through (all bytes were 255), the decrement loop runs on the
zeroed-out buffer, exactly as in the Go source. -/
def byteArithLE (b : List Nat) (x : Bool) : List Nat :=
  if x then
    let r := incLoop b
    if r.2 then r.1 else decLE r.1
  else decLE b

/-- `byteArith` adds either 1 (`x = true`) or -1 (`x = false`) to the
big-endian fixed-width value `b`; there is no check for under- or overflow. -/
def byteArith (b : List Nat) (x : Bool) : List Nat :=
  (byteArithLE b.reverse x).reverse

theorem decLE_incLoop (le : List Nat) (h : le ≠ List.replicate le.length 255) :
    (incLoop le).2 = true ∧ decLE (incLoop le).1 = le := by
  induction le with
  | nil => exact absurd rfl h
  | cons b rest ih =>
    by_cases hb : b = 255
    · subst hb
      have hrest : rest ≠ List.replicate rest.length 255 := by
        intro hr
        exact h (by rw [List.length_cons, List.replicate_succ, ← hr])
      obtain ⟨h1, h2⟩ := ih hrest
      simp [incLoop, decLE, h1, h2]
    · simp [incLoop, hb, decLE]

theorem incLoop_decLE (le : List Nat) (hby : ∀ x ∈ le, x < 256)
    (h : le ≠ List.replicate le.length 0) : incLoop (decLE le) = (le, true) := by
  induction le with
  | nil => exact absurd rfl h
  | cons b rest ih =>
    by_cases hb : b = 0
    · subst hb
      have hrest : rest ≠ List.replicate rest.length 0 := by
        intro hr
        exact h (by rw [List.length_cons, List.replicate_succ, ← hr])
      have ih2 := ih (fun x hx => hby x (List.mem_cons_of_mem _ hx)) hrest
      simp [decLE, incLoop, ih2]
    · have hlt : b < 256 := hby b (List.mem_cons_self _ _)
      have hne : ¬ (b - 1 = 255) := by omega
      have hs : b - 1 + 1 = b := by omega
      simp [decLE, hb, incLoop, hne, hs]

theorem byteArithLE_inc_dec (le : List Nat) (h : le ≠ List.replicate le.length 255) :
    byteArithLE (byteArithLE le true) false = le := by
  obtain ⟨h1, h2⟩ := decLE_incLoop le h
  simp [byteArithLE, h1, h2]

theorem byteArithLE_dec_inc (le : List Nat) (hby : ∀ x ∈ le, x < 256)
    (h : le ≠ List.replicate le.length 0) :
    byteArithLE (byteArithLE le false) true = le := by
  simp [byteArithLE, incLoop_decLE le hby h]

theorem reverse_ne_replicate {b : List Nat} {c : Nat}
    (h : b ≠ List.replicate b.length c) : b.reverse ≠ List.replicate b.reverse.length c := by
  intro hr
  apply h
  have := congrArg List.reverse hr
  simpa [List.reverse_replicate] using this

theorem byteArith_inc_dec (b : List Nat) (h : b ≠ List.replicate b.length 255) :
    byteArith (byteArith b true) false = b := by
  have h' := reverse_ne_replicate h
  simp [byteArith, List.reverse_reverse, byteArithLE_inc_dec b.reverse h']

theorem byteArith_dec_inc (b : List Nat) (hby : ∀ x ∈ b, x < 256)
    (h : b ≠ List.replicate b.length 0) :
    byteArith (byteArith b false) true = b := by
  have h' := reverse_ne_replicate h
  have hby' : ∀ x ∈ b.reverse, x < 256 := fun x hx => hby x (List.mem_reverse.mp hx)
  simp [byteArith, List.reverse_reverse, byteArithLE_dec_inc b.reverse hby' h']

/-! ## Go `encoding/base32` HexEncoding (used by packBase32/unpackBase32,
src/dnssec.go lines 166-178)

Alphabet `0123456789ABCDEFGHIJKLMNOPQRSTUV`, pad character `=`.  Byte values
are `Nat`; the `% 256` after a left shift is the Go `byte` truncation. -/

/-- The HexEncoding decode map: digit value of a character, 255 for a character
outside the alphabet. -/
def b32val (c : Char) : Nat :=
  if '0' ≤ c ∧ c ≤ '9' then c.toNat - 48
  else if 'A' ≤ c ∧ c ≤ 'V' then c.toNat - 55
  else 255

/-- The HexEncoding alphabet character for a 5-bit value. -/
def b32chr (n : Nat) : Char :=
  "0123456789ABCDEFGHIJKLMNOPQRSTUV".data.getD (n &&& 31) '0'

/-- Reads one 8-character quantum of base32 digits (`left` counts the digits
still missing, `j` the digits already read).  `none` models a
`CorruptInputError` inside this quantum (invalid character, missing or
malformed padding): Go then reports only the bytes of the previously completed
quanta.  Otherwise returns the digit values, the remaining input, and whether
padding ended the data. -/
def readQuantumAux : Nat → Nat → List Char → List Nat →
    Option (List Nat × List Char × Bool)
  | 0, _, cs, acc => some (acc.reverse, cs, false)
  | left + 1, j, cs, acc =>
      match cs with
      | [] => none
      | c :: rest =>
          if c = '=' ∧ 2 ≤ j ∧ rest.length < 8 then
            if rest.length + j < 7 then none
            else if (rest.take (7 - j)).any (fun p => p ≠ '=') then none
            else if j = 3 ∨ j = 6 then none
            else some (acc.reverse, [], true)
          else
            let v := b32val c
            if v = 255 then none else readQuantumAux left (j + 1) rest (v :: acc)

/-- Reads one full quantum from the front of the input. -/
def readQuantum (cs : List Char) : Option (List Nat × List Char × Bool) :=
  readQuantumAux 8 0 cs []

/-- Packs up to 8 base32 digit values into up to 5 destination bytes, following
the shift/or formulas of Go `encoding/base32` decode; the number of bytes is
determined by the quantum length (8, 7, 5, 4 or 2 digits). -/
def decodeQuantumBytes (d : List Nat) : List Nat :=
  let g := fun i => d.getD i 0
  let dst0 := ((g 0 <<< 3) % 256) ||| (g 1 >>> 2)
  let dst1 := ((g 1 <<< 6) % 256) ||| ((g 2 <<< 1) % 256) ||| (g 3 >>> 4)
  let dst2 := ((g 3 <<< 4) % 256) ||| (g 4 >>> 1)
  let dst3 := ((g 4 <<< 7) % 256) ||| ((g 5 <<< 2) % 256) ||| (g 6 >>> 3)
  let dst4 := ((g 6 <<< 5) % 256) ||| g 7
  match d.length with
  | 2 => [dst0]
  | 4 => [dst0, dst1]
  | 5 => [dst0, dst1, dst2]
  | 7 => [dst0, dst1, dst2, dst3]
  | 8 => [dst0, dst1, dst2, dst3, dst4]
  | _ => []

/-- The decode loop, one quantum per step; the fuel argument (instantiated with
the input length, an upper bound on the number of quanta) only serves
termination. -/
def packLoopF : Nat → List Char → List Nat
  | 0, _ => []
  | _, [] => []
  | fuel + 1, c :: cs =>
      match readQuantum (c :: cs) with
      | none => []
      | some (ds, rest, ended) =>
          decodeQuantumBytes ds ++ (if ended then [] else packLoopF fuel rest)

/-- `packBase32` base32hex-decodes `s`, keeping only the bytes decoded before
any error (Go ignores the error and truncates the buffer to `n`).  Newlines
are stripped first, as in Go `base32.Decode`. -/
def packBase32 (s : String) : List Nat :=
  let cs := s.data.filter (fun c => ¬ (c = '\r' ∨ c = '\n'))
  packLoopF cs.length cs

/-- The digit values `b[0..7]` of one encode group of up to 5 source bytes,
following the shift/or/mask formulas of Go `encoding/base32` encode (missing
source bytes leave the corresponding digits zero). -/
def encGroup : List Nat → List Nat
  | [a] =>
      [a >>> 3, ((a <<< 2) % 256) &&& 31, 0, 0, 0, 0, 0, 0]
  | [a, b] =>
      [a >>> 3, (((b >>> 6) &&& 31) ||| (((a <<< 2) % 256) &&& 31)),
       (b >>> 1) &&& 31, ((b <<< 4) % 256) &&& 31, 0, 0, 0, 0]
  | [a, b, c] =>
      [a >>> 3, (((b >>> 6) &&& 31) ||| (((a <<< 2) % 256) &&& 31)),
       (b >>> 1) &&& 31, (((c >>> 4) &&& 31) ||| (((b <<< 4) % 256) &&& 31)),
       ((c <<< 1) % 256) &&& 31, 0, 0, 0]
  | [a, b, c, d] =>
      [a >>> 3, (((b >>> 6) &&& 31) ||| (((a <<< 2) % 256) &&& 31)),
       (b >>> 1) &&& 31, (((c >>> 4) &&& 31) ||| (((b <<< 4) % 256) &&& 31)),
       ((d >>> 7) ||| (((c <<< 1) % 256) &&& 31)), (d >>> 2) &&& 31,
       ((d <<< 3) % 256) &&& 31, 0]
  | a :: b :: c :: d :: e :: _ =>
      [a >>> 3, (((b >>> 6) &&& 31) ||| (((a <<< 2) % 256) &&& 31)),
       (b >>> 1) &&& 31, (((c >>> 4) &&& 31) ||| (((b <<< 4) % 256) &&& 31)),
       ((d >>> 7) ||| (((c <<< 1) % 256) &&& 31)), (d >>> 2) &&& 31,
       ((e >>> 5) ||| (((d <<< 3) % 256) &&& 31)), e &&& 31]
  | [] => []

/-- Number of pad characters of a final group of the given source length. -/
def padCount : Nat → Nat
  | 1 => 6
  | 2 => 4
  | 3 => 3
  | 4 => 1
  | _ => 0

/-- The 8 output characters of one encode group: alphabet characters for the
leading digits, `=` padding for the rest. -/
def encQuantum (g : List Nat) : List Char :=
  ((encGroup g).take (8 - padCount g.length)).map b32chr
    ++ List.replicate (padCount g.length) '='

/-- Splits a byte list into encode groups of at most 5 bytes (the fuel
argument, instantiated with the list length, only serves termination). -/
def chunks5F : Nat → List Nat → List (List Nat)
  | 0, _ => []
  | _, [] => []
  | fuel + 1, a :: rest => (a :: rest.take 4) :: chunks5F fuel (rest.drop 4)

/-- Splits a byte list into encode groups of at most 5 bytes. -/
def chunks5 (b : List Nat) : List (List Nat) := chunks5F b.length b

/-- `unpackBase32` base32hex-encodes a byte list (uppercase, padded). -/
def unpackBase32 (b : List Nat) : String :=
  ⟨((chunks5 b).map encQuantum).flatten⟩

/-- Go `strings.ToLower`, applied rune by rune (the core library string
mapper does not reduce in the kernel, so the embedding maps over the
character list directly). -/
def strToLower (s : String) : String := ⟨s.data.map Char.toLower⟩

/-! ## The DNS record model

Only the fields that `src/dnssec.go` reads or writes are modelled.  Record
type numbers are the RFC constants used by the dns library: A = 1, NS = 2,
SOA = 6, TXT = 16, AAAA = 28, SRV = 33, OPT = 41, RRSIG = 46, DNSKEY = 48,
NSEC3 = 50; class INET = 1. -/

/-- Resource record header (`dns.RR_Header`): owner name, type, class, TTL. -/
structure Hdr where
  name : String
  rrtype : Nat
  cls : Nat
  ttl : Nat
deriving DecidableEq

/-- The part of `dns.RRSIG` the subsystem touches. -/
structure RRSIG where
  hdr : Hdr
  typeCovered : Nat
  algorithm : Nat
  origTtl : Nat
  expiration : Nat
  inception : Nat
  keyTag : Nat
  signerName : String
  signature : String
deriving DecidableEq

/-- The part of `dns.NSEC3` the subsystem touches. -/
structure NSEC3Data where
  hashAlg : Nat
  flags : Nat
  iterations : Nat
  salt : String
  nextDomain : String
  typeBitMap : List Nat
deriving DecidableEq

/-- Record data, one variant per concrete `dns.RR` type the source code
distinguishes (in its type switch and type assertions); `other` stands for
every remaining record type, which the source treats uniformly. -/
inductive RData where
  | soa (serial : Nat)
  | srv (priority weight port : Nat) (target : String)
  | a (addr : List Nat)
  | aaaa (addr : List Nat)
  | nsec3 (d : NSEC3Data)
  | dnskey
  | ns
  | txt
  | rrsig (sig : RRSIG)
  | opt
  | other
deriving DecidableEq

/-- A resource record: header plus data. -/
structure RR where
  hdr : Hdr
  rdata : RData
deriving DecidableEq

/-- Placeholder record for head-of-list access (Go would panic on an empty
record set; no modelled call reaches this default). -/
def defaultRR : RR := { hdr := { name := "", rrtype := 0, cls := 0, ttl := 0 }, rdata := .other }

/-- The NSEC3 next-hashed owner name of a record (empty for other data). -/
def RR.nsec3Next (r : RR) : String :=
  match r.rdata with
  | .nsec3 d => d.nextDomain
  | _ => ""

/-- Embeds an RRSIG as a plain record for appending to a message section. -/
def RRSIG.toRR (g : RRSIG) : RR := { hdr := g.hdr, rdata := .rrsig g }

/-- A DNS message: result code, question names, and the three record
sections. -/
structure Msg where
  rcode : Nat
  question : List String
  answer : List RR
  ns : List RR
  extra : List RR
  truncated : Bool

/-- The server configuration fields `src/dnssec.go` reads.  `hashName` stands
for the external `dns.HashName(·, dns.SHA1, 0, "")`: SHA-1 of the canonical
name, presented in uppercase base32hex. -/
structure Config where
  domain : String
  minTtl : Nat
  ttl : Nat
  keyTag : Nat
  algorithm : Nat
  signerName : String
  closestEncloser : RR
  denyWildcard : RR
  hashName : String → String

/-! ## Fingerprint function `sigCache.key` (src/dnssec.go lines 337-369) -/

/-- Go `packUint16`: big-endian bytes of a 16-bit value. -/
def packUint16 (i : Nat) : List Nat := [i >>> 8 % 256, i % 256]

/-- Go `packUint32`: big-endian bytes of a 32-bit value. -/
def packUint32 (i : Nat) : List Nat :=
  [i >>> 24 % 256, i >>> 16 % 256, i >>> 8 % 256, i % 256]

/-- Byte serialization of a (ASCII domain name) string, Go `[]byte(s)`. -/
def strBytes (s : String) : List Nat := s.data.map Char.toNat

/-- SHA-1 of the empty message: the key function never writes into the hash
state, so `h.Sum(i)` appends this constant digest to `i`. -/
def sha1Empty : List Nat :=
  [218, 57, 163, 238, 94, 107, 75, 13, 50, 85, 191, 239, 149, 96, 24, 144, 175, 216, 7, 9]

/-- The per-record projection of the type switch in `sigCache.key`: only a few
types are serialized manually; note the SRV case folds in `Weight` twice and
never `Port`, and DNSKEY/NS/TXT (and every unlisted type) contribute nothing. -/
def keyProj (r : RR) : List Nat :=
  match r.rdata with
  | .soa serial => packUint32 serial
  | .srv priority weight _ target =>
      packUint16 priority ++ packUint16 weight ++ packUint16 weight ++ strBytes target
  | .a addr => addr
  | .aaaa addr => addr
  | .nsec3 d => strBytes d.nextDomain
  | _ => []

/-- `sigCache.key`: name and type of the first record, the projections of all
records, then `h.Sum` appends the digest of the (empty) hash state. -/
def sigCache.key (rrs : List RR) : List Nat :=
  match rrs with
  | [] => []
  | r0 :: _ =>
      (strBytes r0.hdr.name ++ packUint16 r0.hdr.rrtype
        ++ (rrs.map keyProj).flatten) ++ sha1Empty

/-! ## Signature cache (src/dnssec.go lines 302-335), as an association list -/

/-- Removes a key from an association list (Go `delete`). -/
def mapErase {β : Type} (m : List (List Nat × β)) (k : List Nat) : List (List Nat × β) :=
  m.filter (fun p => p.1 != k)

/-- `sigCache.search`: the stored signature for a key.  Go returns a defensive
`dns.Copy`; structurally this is the stored value itself. -/
def sigCache.search (m : List (List Nat × RRSIG)) (k : List Nat) : Option RRSIG :=
  m.lookup k

/-- `sigCache.insert`: first writer wins, a present entry is kept. -/
def sigCache.insert (m : List (List Nat × RRSIG)) (k : List Nat) (v : RRSIG) :
    List (List Nat × RRSIG) :=
  match m.lookup k with
  | some _ => m
  | none => (k, v) :: m

/-- `sigCache.remove`: unconditional delete. -/
def sigCache.remove (m : List (List Nat × RRSIG)) (k : List Nat) :
    List (List Nat × RRSIG) :=
  mapErase m k

/-! ## `dns.RRSIG.ValidityPeriod` (external dns library, called at
src/dnssec.go line 125) -/

/-- The serial-arithmetic modulus 2^31 of RFC 4034. -/
def year68 : Int := 2147483648

/-- `ValidityPeriod`: whether `utc` falls between inception and expiration
under 32-bit serial arithmetic.  Go `/` on int64 truncates toward zero, hence
`Int.tdiv`. -/
def RRSIG.validityPeriod (rr : RRSIG) (utc : Int) : Bool :=
  let modi := (Int.ofNat rr.inception - utc).tdiv year68
  let mode := (Int.ofNat rr.expiration - utc).tdiv year68
  let ti := Int.ofNat rr.inception + modi * year68
  let te := Int.ofNat rr.expiration + mode * year68
  decide (ti ≤ utc ∧ utc ≤ te)

/-! ## Single-flight coordinator (src/dnssec.go lines 371-408)

Sequential embedding: the registry is an association list from key to the
call record a waiter would observe after the leader's WaitGroup completes;
`ran` records whether this caller executed the operation itself. -/

/-- An in-flight call record (`type call`). -/
structure Call where
  val : RRSIG
  err : Option String
  dups : Nat
deriving DecidableEq

/-- Result of `single.Do`: value, error, the shared flag, the registry after
the call, and whether this caller ran the operation. -/
structure DoOut where
  val : RRSIG
  err : Option String
  shared : Bool
  reg : List (List Nat × Call)
  ran : Bool

/-- Replaces the record stored under a key. -/
def mapUpdate (m : List (List Nat × Call)) (k : List Nat) (c : Call) :
    List (List Nat × Call) :=
  m.map (fun p => if p.1 = k then (k, c) else p)

/-- `single.Do`.  A caller finding `key` registered becomes a follower: bumps
the duplicate counter, waits, and observes the leader's stored outcome with
`shared = true`.  Otherwise the caller registers a record, runs `fn`, stores
the outcome, deregisters, and reports `c.dups > 0` as the shared flag (0 in
this sequential embedding, since no follower can arrive mid-call). -/
def single.Do (m : List (List Nat × Call)) (key : List Nat)
    (fn : Unit → RRSIG × Option String) : DoOut :=
  match m.lookup key with
  | some c =>
      { val := c.val, err := c.err, shared := true,
        reg := mapUpdate m key { c with dups := c.dups + 1 }, ran := false }
  | none =>
      let v := fn ()
      let c : Call := { val := v.1, err := v.2, dups := 0 }
      { val := c.val, err := c.err, shared := decide (c.dups > 0),
        reg := mapErase ((key, c) :: m) key, ran := true }

/-! ## The signer (src/dnssec.go lines 80-164) -/

/-- `server.NewRRSIG`: a fresh signature record stamped from the
configuration; unassigned Go struct fields keep their zero values. -/
def server.NewRRSIG (s : Config) (incep expir : Nat) : RRSIG :=
  { hdr := { name := "", rrtype := 46, cls := 0, ttl := s.ttl },
    typeCovered := 0, algorithm := s.algorithm, origTtl := s.ttl,
    expiration := expir, inception := incep, keyTag := s.keyTag,
    signerName := s.signerName, signature := "" }

/-- The signature record as prepared inside the `signSet` closure before the
cryptographic call: header TTL copied from the record set's first record, and
the original TTL forced to zero for TXT record sets. -/
def sig1Of (s : Config) (r : List RR) (incep expir : Nat) : RRSIG :=
  let sig0 := server.NewRRSIG s incep expir
  let sig1 := { sig0 with hdr := { sig0.hdr with ttl := (r.headD defaultRR).hdr.ttl } }
  if (r.headD defaultRR).hdr.rrtype = 16 then { sig1 with origTtl := 0 } else sig1

/-- Model of the external `dns.RRSIG.Sign`: on success the derived header
fields are copied from the first record of the set and the signature bytes
(produced by the cryptographic core `crypto`, a parameter) are stored; a
cryptographic failure is returned as the error. -/
def dnsSign (crypto : RRSIG → List RR → Except String String) (sig : RRSIG)
    (r : List RR) : Except String RRSIG :=
  match crypto sig r with
  | .error e => .error e
  | .ok data =>
      let h0 := (r.headD defaultRR).hdr
      .ok { sig with
              hdr := { sig.hdr with name := h0.name, rrtype := 46, cls := h0.cls },
              typeCovered := h0.rrtype, signature := data }

/-- The shared mutable state of the signing path: the signature cache and the
single-flight registry (package-level `cache` and `inflight`). -/
structure SignState where
  cache : List (List Nat × RRSIG)
  flight : List (List Nat × Call)

/-- Result of one `signSet` call: the returned signature or error, the state
after the call, whether the signing closure ran, and whether the single-flight
coordinator was entered (i.e. the cache lookup missed). -/
structure SignSetOut where
  res : Except String RRSIG
  st : SignState
  ranSign : Bool
  usedFlight : Bool

/-- The cache-miss tail of `signSet` (everything after the cache check falls
through): single-flight the closure that builds and signs the record, return
the error if signing failed, otherwise insert into the cache unless the
result was shared. -/
def server.signSetMiss (s : Config) (crypto : RRSIG → List RR → Except String String)
    (r : List RR) (incep expir : Nat) (st : SignState) : SignSetOut :=
  let key := sigCache.key r
  let fn : Unit → RRSIG × Option String := fun _ =>
    let sig1 := sig1Of s r incep expir
    match dnsSign crypto sig1 r with
    | .ok sg => (sg, none)
    | .error e => (sig1, some e)
  let o := single.Do st.flight key fn
  let st1 : SignState := { st with flight := o.reg }
  match o.err with
  | some e => { res := .error e, st := st1, ranSign := o.ran, usedFlight := true }
  | none =>
      if !o.shared then
        { res := .ok o.val,
          st := { st1 with cache := sigCache.insert st1.cache key o.val },
          ranSign := o.ran, usedFlight := true }
      else { res := .ok o.val, st := st1, ranSign := o.ran, usedFlight := true }

/-- `server.signSet`: consult the cache first; a hit still valid 24 hours from
now is returned as-is (Go returns the defensive copy made by `search`), a
stale hit is removed and treated as a miss. -/
def server.signSet (s : Config) (crypto : RRSIG → List RR → Except String String)
    (r : List RR) (now : Nat) (incep expir : Nat) (st : SignState) : SignSetOut :=
  let key := sigCache.key r
  match sigCache.search st.cache key with
  | some sig =>
      if sig.validityPeriod (Int.ofNat (now + 86400)) then
        { res := .ok sig, st := st, ranSign := false, usedFlight := false }
      else
        server.signSetMiss s crypto r incep expir
          { st with cache := sigCache.remove st.cache key }
  | none => server.signSetMiss s crypto r incep expir st

/-! ## RRset grouping and the message-level signer -/

/-- `rrSets` partitions a section into record sets keyed by (owner name,
type).  The Go function returns a map (nil when empty) whose iteration order
is unspecified; the embedding lists the groups in first-encounter order. -/
def rrSets (rrs : List RR) : List (List RR) :=
  ((rrs.map (fun r => (r.hdr.name, r.hdr.rrtype))).eraseDups).map
    (fun k => rrs.filter (fun r => r.hdr.name == k.1 && r.hdr.rrtype == k.2))

/-- The per-section loop of `server.sign`: record sets whose first record is
already an RRSIG are skipped, a failed `signSet` contributes nothing (its
error is dropped), a successful one contributes its signature. -/
def signGroups (s : Config) (crypto : RRSIG → List RR → Except String String)
    (now incep expir : Nat) : List (List RR) → SignState → List RRSIG × SignState
  | [], st => ([], st)
  | g :: gs, st =>
      if (g.headD defaultRR).hdr.rrtype = 46 then signGroups s crypto now incep expir gs st
      else
        let o := server.signSet s crypto g now incep expir st
        let rest := signGroups s crypto now incep expir gs o.st
        match o.res with
        | .ok sig => (sig :: rest.1, rest.2)
        | .error _ => rest

/-- The OPT pseudo-record appended by `server.sign`: `SetDo` sets bit 15 of
the TTL and `SetUDPSize(4096)` stores the size in the class field. -/
def optRR : RR :=
  { hdr := { name := ".", rrtype := 41, cls := 4096, ttl := 32768 }, rdata := .opt }

/-- `server.sign`: signs the three sections, recomputes the truncation flag
against the requested buffer size (`msgLen` models the external `Msg.Len`),
and appends the OPT record.  Timing: inception is now − 3 h, expiration is
now + 7 days, both as 32-bit values (`now` is a Unix timestamp, at least
3 hours past the epoch). -/
def server.sign (s : Config) (crypto : RRSIG → List RR → Except String String)
    (msgLen : Msg → Nat) (m : Msg) (bufsize : Nat) (now : Nat) (st : SignState) :
    Msg × SignState :=
  let incep := (now - 10800) % 4294967296
  let expir := (now + 604800) % 4294967296
  let oa := signGroups s crypto now incep expir (rrSets m.answer) st
  let m1 := { m with answer := m.answer ++ oa.1.map RRSIG.toRR }
  let ob := signGroups s crypto now incep expir (rrSets m1.ns) oa.2
  let m2 := { m1 with ns := m1.ns ++ ob.1.map RRSIG.toRR }
  let oe := signGroups s crypto now incep expir (rrSets m2.extra) ob.2
  let m3 := { m2 with extra := m2.extra ++ oe.1.map RRSIG.toRR }
  let m4 :=
    if 512 ≤ bufsize ∨ bufsize ≤ 4096 then
      { m3 with truncated := decide (bufsize < msgLen m3) }
    else m3
  ({ m4 with extra := m4.extra ++ [optRR] }, oe.2)

/-! ## NSEC3 synthesis (src/dnssec.go lines 180-255) and `Denial` -/

/-- `server.NewNSEC3NameError`: the NSEC3 that covers a denied qname.  The
hash of the qname is decremented one step for the owner name and then, in the
same buffer, incremented twice for the next-hashed owner name. -/
def server.NewNSEC3NameError (s : Config) (qname : String) : RR :=
  let covername := s.hashName qname
  let buf1 := byteArith (packBase32 covername) false
  let buf2 := byteArith (byteArith buf1 true) true
  { hdr := { name := strToLower (unpackBase32 buf1) ++ "." ++ s.domain,
             rrtype := 50, cls := 1, ttl := s.minTtl },
    rdata := .nsec3 { hashAlg := 1, flags := 0, iterations := 0, salt := "",
                      nextDomain := unpackBase32 buf2, typeBitMap := [] } }

/-- `server.NewNSEC3NoData`: the NSEC3 that denies the queried types of an
existing qname; the owner hash is the qname hash itself and the next-hashed
owner name is that hash incremented one step. -/
def server.NewNSEC3NoData (s : Config) (qname : String) : RR :=
  let h := s.hashName qname
  { hdr := { name := h ++ "." ++ s.domain, rrtype := 50, cls := 1, ttl := s.minTtl },
    rdata := .nsec3 { hashAlg := 1, flags := 0, iterations := 0, salt := "",
                      nextDomain := unpackBase32 (byteArith (packBase32 h) true),
                      typeBitMap := [] } }

/-- `newNSEC3CEandWildcard`: the precomputed closest-encloser NSEC3 and the
precomputed wildcard-denial NSEC3.  Note the second record base32-decodes the
literal string `"*." + apex` (not its hash), verbatim from the source. -/
def newNSEC3CEandWildcard (hashName : String → String) (apex ce : String)
    (ttl : Nat) : RR × RR :=
  let n1name := hashName ce ++ "." ++ apex
  let n1 : RR :=
    { hdr := { name := n1name, rrtype := 50, cls := 1, ttl := ttl },
      rdata := .nsec3 { hashAlg := 1, flags := 0, iterations := 0, salt := "",
                        nextDomain := unpackBase32 (byteArith (packBase32 n1name) true),
                        typeBitMap := [] } }
  let buf1 := byteArith (packBase32 ("*." ++ apex)) false
  let buf2 := byteArith (byteArith buf1 true) true
  let n2 : RR :=
    { hdr := { name := strToLower (unpackBase32 buf1) ++ "." ++ apex,
               rrtype := 50, cls := 1, ttl := ttl },
      rdata := .nsec3 { hashAlg := 1, flags := 0, iterations := 0, salt := "",
                        nextDomain := unpackBase32 buf2, typeBitMap := [] } }
  (n1, n2)

/-- Whether a record is a SOA record (the Go type assertion `.(*dns.SOA)`). -/
def isSOA (r : RR) : Bool :=
  match r.rdata with
  | .soa _ => true
  | _ => false

/-- `server.Denial`: on NXDOMAIN, append the covering NSEC3 and the
precomputed closest-encloser and wildcard-denial records (each unless its
owner equals the synthesized owner); on success with exactly one authority
record that is the SOA, append the NODATA NSEC3.  (Go reads
`m.Question[0].Name`; a message always carries its question.) -/
def server.Denial (s : Config) (m : Msg) : Msg :=
  let m1 :=
    if m.rcode = 3 then
      let nsec3 := server.NewNSEC3NameError s (m.question.headD "")
      let ns1 := m.ns ++ [nsec3]
      let ns2 := if nsec3.hdr.name ≠ s.closestEncloser.hdr.name
                 then ns1 ++ [s.closestEncloser] else ns1
      let ns3 := if nsec3.hdr.name ≠ s.denyWildcard.hdr.name
                 then ns2 ++ [s.denyWildcard] else ns2
      { m with ns := ns3 }
    else m
  if m1.rcode = 0 ∧ m1.ns.length = 1 ∧ isSOA (m1.ns.headD defaultRR) then
    { m1 with ns := m1.ns ++ [server.NewNSEC3NoData s (m1.question.headD "")] }
  else m1

/-! ## Map and serial-arithmetic helper lemmas -/

theorem lookup_none_mapErase {β : Type} (m : List (List Nat × β)) (k : List Nat)
    (h : m.lookup k = none) : mapErase m k = m := by
  induction m with
  | nil => rfl
  | cons p rest ih =>
    obtain ⟨k', v⟩ := p
    rw [List.lookup_cons] at h
    cases hkk : k == k' with
    | true => rw [hkk] at h; exact absurd h (by simp)
    | false =>
      rw [hkk] at h
      have hne : (k' != k) = true := by
        have : ¬ k = k' := by simpa using hkk
        simp [bne_iff_ne]
        exact fun he => this he.symm
      simp only [mapErase, List.filter_cons, hne, if_true]
      rw [show List.filter (fun p => p.1 != k) rest = mapErase rest k from rfl, ih h]

theorem lookup_insert (m : List (List Nat × RRSIG)) (k : List Nat) (v : RRSIG)
    (h : m.lookup k = none) : (sigCache.insert m k v).lookup k = some v := by
  simp [sigCache.insert, h]

theorem tdiv_year68_nonneg {a : Int} (h1 : 0 ≤ a) (h2 : a < 2147483648) :
    a.tdiv 2147483648 = 0 :=
  Int.tdiv_eq_zero_of_lt h1 h2

theorem tdiv_year68_neg {a : Int} (h1 : -2147483648 < a) (h2 : a ≤ 0) :
    a.tdiv 2147483648 = 0 := by
  have ha : a = -(-a) := by omega
  rw [ha, Int.neg_tdiv, tdiv_year68_nonneg (by omega) (by omega), neg_zero]

/-- A signature is accepted by `ValidityPeriod` whenever `utc` lies in the
inception-expiration window and both distances stay below 2^31. -/
theorem validityPeriod_window (rr : RRSIG) (utc : Int)
    (hi1 : Int.ofNat rr.inception ≤ utc)
    (hi2 : utc - Int.ofNat rr.inception < 2147483648)
    (he1 : utc ≤ Int.ofNat rr.expiration)
    (he2 : Int.ofNat rr.expiration - utc < 2147483648) :
    rr.validityPeriod utc = true := by
  have h1 : (Int.ofNat rr.inception - utc).tdiv year68 = 0 :=
    tdiv_year68_neg (by omega) (by omega)
  have h2 : (Int.ofNat rr.expiration - utc).tdiv year68 = 0 :=
    tdiv_year68_nonneg (by omega) (by omega)
  simp only [RRSIG.validityPeriod, h1, h2, zero_mul, add_zero, decide_eq_true_eq]
  exact ⟨hi1, he1⟩

/-! ## Concrete fixtures for witnesses and counterexamples -/

/-- A closest-encloser record as precomputed at startup. -/
def ceW : RR :=
  { hdr := { name := "ce.example.com.", rrtype := 50, cls := 1, ttl := 60 },
    rdata := .nsec3 { hashAlg := 1, flags := 0, iterations := 0, salt := "",
                      nextDomain := "", typeBitMap := [] } }

/-- A wildcard-denial record as precomputed at startup. -/
def dwW : RR :=
  { hdr := { name := "dw.example.com.", rrtype := 50, cls := 1, ttl := 60 },
    rdata := .nsec3 { hashAlg := 1, flags := 0, iterations := 0, salt := "",
                      nextDomain := "", typeBitMap := [] } }

/-- A concrete server configuration; the name hasher is fixed to a valid
32-character base32hex digest. -/
def cfgW : Config :=
  { domain := "example.com.", minTtl := 60, ttl := 60, keyTag := 12345,
    algorithm := 8, signerName := "example.com.", closestEncloser := ceW,
    denyWildcard := dwW,
    hashName := fun _ => "0123456789ABCDEFGHIJKLMNOPQRSTUV" }

/-- A cryptographic core that always succeeds. -/
def cryW : RRSIG → List RR → Except String String := fun _ _ => .ok "sigdata"

/-- A cryptographic core that always fails. -/
def cryFail : RRSIG → List RR → Except String String := fun _ _ => .error "sign error"

/-- A concrete A record. -/
def aRRW : RR :=
  { hdr := { name := "svc.example.com.", rrtype := 1, cls := 1, ttl := 3600 },
    rdata := .a [10, 0, 0, 1] }

/-- An SRV record with port 8080. -/
def srvA : RR :=
  { hdr := { name := "s.example.com.", rrtype := 33, cls := 1, ttl := 60 },
    rdata := .srv 10 20 8080 "t.example.com." }

/-- The same SRV record except for its port, 9090. -/
def srvB : RR :=
  { hdr := { name := "s.example.com.", rrtype := 33, cls := 1, ttl := 60 },
    rdata := .srv 10 20 9090 "t.example.com." }

/-! ## Claim theorems -/

/-- C10: for every fixed-width byte sequence, the hash-space increment
followed by the decrement (and the decrement followed by the increment)
returns the original value, excluding the unchecked wraparound edge cases
(all-0xFF for increment-first, all-0x00 for decrement-first). -/
theorem byteArith_inverse (b : List Nat) (hby : ∀ x ∈ b, x < 256) :
    (b ≠ List.replicate b.length 255 → byteArith (byteArith b true) false = b)
    ∧ (b ≠ List.replicate b.length 0 → byteArith (byteArith b false) true = b) :=
  ⟨fun h => byteArith_inc_dec b h, fun h => byteArith_dec_inc b hby h⟩

/-- Witness for C10 at the concrete value [0, 17, 255]. -/
theorem byteArith_inverse_witness :
    byteArith (byteArith [0, 17, 255] true) false = [0, 17, 255]
    ∧ byteArith (byteArith [0, 17, 255] false) true = [0, 17, 255] :=
  ⟨(byteArith_inverse [0, 17, 255] (by decide)).1 (by decide),
   (byteArith_inverse [0, 17, 255] (by decide)).2 (by decide)⟩

/-- On a key with no in-flight computation, `single.Do` runs the operation
itself, returns its outcome unshared, and deregisters the pending entry. -/
theorem Do_not_inflight (m : List (List Nat × Call)) (key : List Nat)
    (fn : Unit → RRSIG × Option String) (h : m.lookup key = none) :
    single.Do m key fn =
      { val := (fn ()).1, err := (fn ()).2, shared := false, reg := m, ran := true } := by
  simp only [single.Do, h]
  have herase : mapErase ((key, ⟨(fn ()).1, (fn ()).2, 0⟩) :: m) key = m := by
    simp only [mapErase, List.filter_cons]
    rw [show (key != key) = false by simp]
    simpa only [mapErase] using lookup_none_mapErase m key h
  simp [herase]

/-- C9: a `single.Do` caller that finds no computation in flight for its key
runs the operation itself exactly once, gets its result and error back,
leaves the registry as it found it (the pending entry is deregistered), and
is told the result was not shared. -/
theorem single_Do_leader (m : List (List Nat × Call)) (key : List Nat)
    (fn : Unit → RRSIG × Option String) (h : m.lookup key = none) :
    single.Do m key fn =
      { val := (fn ()).1, err := (fn ()).2, shared := false, reg := m, ran := true } :=
  Do_not_inflight m key fn h

/-- Witness for C9 on an empty registry. -/
theorem single_Do_leader_witness :
    single.Do [] [1, 2, 3]
        (fun _ => ({ hdr := { name := "", rrtype := 46, cls := 0, ttl := 0 },
                     typeCovered := 0, algorithm := 0, origTtl := 0, expiration := 0,
                     inception := 0, keyTag := 0, signerName := "", signature := "" },
                   none)) =
      { val := { hdr := { name := "", rrtype := 46, cls := 0, ttl := 0 },
                 typeCovered := 0, algorithm := 0, origTtl := 0, expiration := 0,
                 inception := 0, keyTag := 0, signerName := "", signature := "" },
        err := none, shared := false, reg := [], ran := true } :=
  single_Do_leader [] [1, 2, 3] _ rfl

/-- C2 (code bug): the second record returned by `newNSEC3CEandWildcard` is
built by base32-decoding the literal string `"*." + apex`, which fails at the
very first character, so its owner name is the bare `"." + apex` (no hash
label at all) and its next-hashed owner name is empty — not the hash of
`*.apex` decremented by one with that value incremented by two as specified. -/
theorem wildcard_denial_empty_hash :
    (newNSEC3CEandWildcard (fun nm => nm) "example.com." "example.com." 60).2.hdr.name
        = ".example.com."
    ∧ RR.nsec3Next (newNSEC3CEandWildcard (fun nm => nm) "example.com." "example.com." 60).2
        = "" := by
  constructor
  · rfl
  · rfl

/-- C6: two SRV record sets identical except for their port collide on the
cache fingerprint (the key folds in the weight twice and never the port), and
a signature cached for the first is then served verbatim for the second. -/
theorem srv_key_port_collision :
    srvA.hdr = srvB.hdr
    ∧ srvA.rdata = RData.srv 10 20 8080 "t.example.com."
    ∧ srvB.rdata = RData.srv 10 20 9090 "t.example.com."
    ∧ sigCache.key [srvA] = sigCache.key [srvB]
    ∧ (server.signSet cfgW cryW [srvB] 1700000000 1699989200 1700604800
        (server.signSet cfgW cryW [srvA] 1700000000 1699989200 1700604800
          { cache := [], flight := [] }).st).res
      = (server.signSet cfgW cryW [srvA] 1700000000 1699989200 1700604800
          { cache := [], flight := [] }).res
    ∧ (server.signSet cfgW cryW [srvB] 1700000000 1699989200 1700604800
        (server.signSet cfgW cryW [srvA] 1700000000 1699989200 1700604800
          { cache := [], flight := [] }).st).ranSign = false
    ∧ (server.signSet cfgW cryW [srvB] 1700000000 1699989200 1700604800
        (server.signSet cfgW cryW [srvA] 1700000000 1699989200 1700604800
          { cache := [], flight := [] }).st).usedFlight = false := by
  refine ⟨rfl, rfl, rfl, rfl, ?_, ?_, ?_⟩
  · rfl
  · rfl
  · rfl

/-- The inception timestamp stamped by the signSet closure. -/
theorem sig1Of_inception (s : Config) (r : List RR) (incep expir : Nat) :
    (sig1Of s r incep expir).inception = incep := by
  simp only [sig1Of, server.NewRRSIG]
  split <;> rfl

/-- The expiration timestamp stamped by the signSet closure. -/
theorem sig1Of_expiration (s : Config) (r : List RR) (incep expir : Nat) :
    (sig1Of s r incep expir).expiration = expir := by
  simp only [sig1Of, server.NewRRSIG]
  split <;> rfl

/-- C5: on a `signSet` cache hit, a signature still valid 24 hours past `now`
is returned as-is with no signing and no single-flight; a stale signature is
removed from the cache and the full signing path is taken on the pruned
state (in particular the signing closure runs again). -/
theorem signSet_cache_validity (s : Config)
    (crypto : RRSIG → List RR → Except String String) (r : List RR)
    (now incep expir : Nat) (st : SignState) (sig : RRSIG)
    (hhit : st.cache.lookup (sigCache.key r) = some sig) :
    (sig.validityPeriod ((now : Int) + 86400) = true →
      server.signSet s crypto r now incep expir st =
        { res := .ok sig, st := st, ranSign := false, usedFlight := false })
    ∧ (sig.validityPeriod ((now : Int) + 86400) = false →
      server.signSet s crypto r now incep expir st =
        server.signSetMiss s crypto r incep expir
          { cache := sigCache.remove st.cache (sigCache.key r), flight := st.flight }
      ∧ (st.flight.lookup (sigCache.key r) = none →
          (server.signSet s crypto r now incep expir st).ranSign = true
          ∧ (server.signSet s crypto r now incep expir st).usedFlight = true)) := by
  constructor
  · intro hv
    simp [server.signSet, sigCache.search, hhit, hv]
  · intro hv
    have hset : server.signSet s crypto r now incep expir st =
        server.signSetMiss s crypto r incep expir
          { cache := sigCache.remove st.cache (sigCache.key r), flight := st.flight } := by
      simp [server.signSet, sigCache.search, hhit, hv]
    refine ⟨hset, fun hf => ?_⟩
    rw [hset]
    simp only [server.signSetMiss, Do_not_inflight st.flight (sigCache.key r) _ hf]
    rcases hcr : crypto (sig1Of s r incep expir) r with e | data <;>
      simp [dnsSign, hcr]

/-- C7: a cryptographic failure while signing one record set returns the
error to `signSet`'s caller with the cache and the single-flight registry
exactly as before (in particular nothing is cached under that fingerprint),
and the per-section signing loop treats the failed set as contributing
nothing while every remaining set is processed exactly as it would have been. -/
theorem sign_failure_isolated (s : Config)
    (crypto : RRSIG → List RR → Except String String) (g : List RR) (e : String)
    (now incep expir : Nat) (st : SignState) (gs : List (List RR))
    (hfail : crypto (sig1Of s g incep expir) g = .error e)
    (hc : st.cache.lookup (sigCache.key g) = none)
    (hf : st.flight.lookup (sigCache.key g) = none)
    (hg : ¬ (g.headD defaultRR).hdr.rrtype = 46) :
    server.signSet s crypto g now incep expir st =
      { res := .error e, st := st, ranSign := true, usedFlight := true }
    ∧ signGroups s crypto now incep expir (g :: gs) st
        = signGroups s crypto now incep expir gs st := by
  have h1 : server.signSet s crypto g now incep expir st =
      { res := .error e, st := st, ranSign := true, usedFlight := true } := by
    simp only [server.signSet, sigCache.search, hc, server.signSetMiss,
      Do_not_inflight st.flight (sigCache.key g) _ hf]
    simp [dnsSign, hfail]
  refine ⟨h1, ?_⟩
  simp [signGroups, hg, h1]

/-- The record a successful pass through the signing closure produces: the
prepared `sig1Of` record with the header fields copied by the signing library
and the signature bytes filled in. -/
def dnsSignedRRSIG (s : Config) (r : List RR) (incep expir : Nat) (data : String) : RRSIG :=
  { sig1Of s r incep expir with
      hdr := { (sig1Of s r incep expir).hdr with
                 name := (r.headD defaultRR).hdr.name, rrtype := 46,
                 cls := (r.headD defaultRR).hdr.cls },
      typeCovered := (r.headD defaultRR).hdr.rrtype, signature := data }

theorem dnsSign_ok (s : Config) (crypto : RRSIG → List RR → Except String String)
    (r : List RR) (incep expir : Nat) (data : String)
    (hcr : crypto (sig1Of s r incep expir) r = .ok data) :
    dnsSign crypto (sig1Of s r incep expir) r = .ok (dnsSignedRRSIG s r incep expir data) := by
  simp [dnsSign, hcr, dnsSignedRRSIG]

theorem dnsSignedRRSIG_inception (s : Config) (r : List RR) (incep expir : Nat)
    (data : String) : (dnsSignedRRSIG s r incep expir data).inception = incep := by
  rw [show (dnsSignedRRSIG s r incep expir data).inception
        = (sig1Of s r incep expir).inception from rfl, sig1Of_inception]

theorem dnsSignedRRSIG_expiration (s : Config) (r : List RR) (incep expir : Nat)
    (data : String) : (dnsSignedRRSIG s r incep expir data).expiration = expir := by
  rw [show (dnsSignedRRSIG s r incep expir data).expiration
        = (sig1Of s r incep expir).expiration from rfl, sig1Of_expiration]

/-- The outcome of a `signSet` cache miss when the signing closure succeeds:
the freshly signed record is returned and inserted under the fingerprint,
and the single-flight registry ends as it began. -/
theorem signSet_miss_ok (s : Config)
    (crypto : RRSIG → List RR → Except String String) (r : List RR)
    (now incep expir : Nat) (st : SignState) (data : String)
    (hc : st.cache.lookup (sigCache.key r) = none)
    (hf : st.flight.lookup (sigCache.key r) = none)
    (hcr : crypto (sig1Of s r incep expir) r = .ok data) :
    server.signSet s crypto r now incep expir st =
      { res := .ok (dnsSignedRRSIG s r incep expir data),
        st := { cache := sigCache.insert st.cache (sigCache.key r)
                          (dnsSignedRRSIG s r incep expir data),
                flight := st.flight },
        ranSign := true, usedFlight := true } := by
  simp only [server.signSet, sigCache.search, hc, server.signSetMiss,
    Do_not_inflight st.flight (sigCache.key r) _ hf,
    dnsSign_ok s crypto r incep expir data hcr]
  simp

/-- C3: signing the same record set twice in sequence inside the validity
window returns the identical signature value both times, runs the signing
closure only on the first call, and serves the second call from the cache
without entering the single-flight coordinator. -/
theorem signSet_twice_cached (s : Config)
    (crypto : RRSIG → List RR → Except String String) (r : List RR)
    (now now2 incep2 expir2 : Nat) (data : String) (st : SignState)
    (h1 : 10800 ≤ now) (h2 : now + 604800 < 4294967296)
    (h3 : now ≤ now2) (h4 : now2 ≤ now + 518400)
    (hc : st.cache.lookup (sigCache.key r) = none)
    (hf : st.flight.lookup (sigCache.key r) = none)
    (hcr : crypto (sig1Of s r ((now - 10800) % 4294967296) ((now + 604800) % 4294967296)) r
             = .ok data) :
    (server.signSet s crypto r now ((now - 10800) % 4294967296)
        ((now + 604800) % 4294967296) st).res
      = .ok (dnsSignedRRSIG s r ((now - 10800) % 4294967296)
               ((now + 604800) % 4294967296) data)
    ∧ (server.signSet s crypto r now ((now - 10800) % 4294967296)
        ((now + 604800) % 4294967296) st).ranSign = true
    ∧ (server.signSet s crypto r now ((now - 10800) % 4294967296)
        ((now + 604800) % 4294967296) st).usedFlight = true
    ∧ server.signSet s crypto r now2 incep2 expir2
        (server.signSet s crypto r now ((now - 10800) % 4294967296)
          ((now + 604800) % 4294967296) st).st =
      { res := (server.signSet s crypto r now ((now - 10800) % 4294967296)
                  ((now + 604800) % 4294967296) st).res,
        st := (server.signSet s crypto r now ((now - 10800) % 4294967296)
                  ((now + 604800) % 4294967296) st).st,
        ranSign := false, usedFlight := false } := by
  have hmod1 : (now - 10800) % 4294967296 = now - 10800 := Nat.mod_eq_of_lt (by omega)
  have hmod2 : (now + 604800) % 4294967296 = now + 604800 := Nat.mod_eq_of_lt (by omega)
  have ho1 := signSet_miss_ok s crypto r now ((now - 10800) % 4294967296)
    ((now + 604800) % 4294967296) st data hc hf hcr
  rw [ho1]
  refine ⟨rfl, rfl, rfl, ?_⟩
  have hvalid : (dnsSignedRRSIG s r ((now - 10800) % 4294967296)
      ((now + 604800) % 4294967296) data).validityPeriod (Int.ofNat (now2 + 86400)) = true := by
    apply validityPeriod_window
    · rw [dnsSignedRRSIG_inception, hmod1]; simp only [Int.ofNat_eq_coe]; omega
    · rw [dnsSignedRRSIG_inception, hmod1]; simp only [Int.ofNat_eq_coe]; omega
    · rw [dnsSignedRRSIG_expiration, hmod2]; simp only [Int.ofNat_eq_coe]; omega
    · rw [dnsSignedRRSIG_expiration, hmod2]; simp only [Int.ofNat_eq_coe]; omega
  have hlook := lookup_insert st.cache (sigCache.key r)
    (dnsSignedRRSIG s r ((now - 10800) % 4294967296) ((now + 604800) % 4294967296) data) hc
  simp only [server.signSet, sigCache.search, hlook, hvalid, if_true]

/-- C4 counterexample: for a non-TXT record set with TTL 3600 under a
configuration whose TTL is 60, the produced signature carries original TTL 60
(the configured constant), not the record's own TTL as the claim states. -/
theorem rrsig_origttl_not_record_ttl :
    ((server.signSet cfgW cryW [aRRW] 1700000000 1699989200 1700604800
        { cache := [], flight := [] }).res.toOption.map RRSIG.origTtl) = some 60
    ∧ aRRW.hdr.ttl = 3600
    ∧ aRRW.hdr.rrtype ≠ 16
    ∧ (60 : Nat) ≠ 3600 := by
  refine ⟨rfl, rfl, ?_, ?_⟩ <;> decide

/-- C4 (amended): every signature produced by the signer on the signing path
carries inception = now − 3 h and expiration = now + 7 days (as 32-bit
values), a header TTL copied from the record set's own TTL, and an original
TTL equal to the configured zone TTL in general but forced to zero for
TXT record sets. -/
theorem rrsig_fields (s : Config)
    (crypto : RRSIG → List RR → Except String String) (r : List RR)
    (now : Nat) (data : String) (st : SignState)
    (hc : st.cache.lookup (sigCache.key r) = none)
    (hf : st.flight.lookup (sigCache.key r) = none)
    (hcr : crypto (sig1Of s r ((now - 10800) % 4294967296) ((now + 604800) % 4294967296)) r
             = .ok data) :
    ((server.signSet s crypto r now ((now - 10800) % 4294967296)
        ((now + 604800) % 4294967296) st).res.toOption.map RRSIG.inception)
      = some ((now - 10800) % 4294967296)
    ∧ ((server.signSet s crypto r now ((now - 10800) % 4294967296)
        ((now + 604800) % 4294967296) st).res.toOption.map RRSIG.expiration)
      = some ((now + 604800) % 4294967296)
    ∧ ((server.signSet s crypto r now ((now - 10800) % 4294967296)
        ((now + 604800) % 4294967296) st).res.toOption.map (fun g => g.hdr.ttl))
      = some (r.headD defaultRR).hdr.ttl
    ∧ ((server.signSet s crypto r now ((now - 10800) % 4294967296)
        ((now + 604800) % 4294967296) st).res.toOption.map RRSIG.origTtl)
      = some (if (r.headD defaultRR).hdr.rrtype = 16 then 0 else s.ttl) := by
  rw [signSet_miss_ok s crypto r now ((now - 10800) % 4294967296)
    ((now + 604800) % 4294967296) st data hc hf hcr]
  refine ⟨?_, ?_, ?_, ?_⟩
  · simp [Except.toOption, dnsSignedRRSIG_inception]
  · simp [Except.toOption, dnsSignedRRSIG_expiration]
  · simp only [Except.toOption, Option.map]
    rw [show (dnsSignedRRSIG s r ((now - 10800) % 4294967296)
          ((now + 604800) % 4294967296) data).hdr.ttl
        = (sig1Of s r ((now - 10800) % 4294967296) ((now + 604800) % 4294967296)).hdr.ttl
        from rfl]
    simp only [sig1Of, server.NewRRSIG]
    split <;> rfl
  · simp only [Except.toOption, Option.map]
    rw [show (dnsSignedRRSIG s r ((now - 10800) % 4294967296)
          ((now + 604800) % 4294967296) data).origTtl
        = (sig1Of s r ((now - 10800) % 4294967296) ((now + 604800) % 4294967296)).origTtl
        from rfl]
    simp only [sig1Of, server.NewRRSIG]
    split <;> simp_all

/-- Witness for C4's amended theorem at a concrete A record set. -/
theorem rrsig_fields_witness :
    ((server.signSet cfgW cryW [aRRW] 1700000000 ((1700000000 - 10800) % 4294967296)
        ((1700000000 + 604800) % 4294967296)
        { cache := [], flight := [] }).res.toOption.map RRSIG.inception)
      = some ((1700000000 - 10800) % 4294967296)
    ∧ ((server.signSet cfgW cryW [aRRW] 1700000000 ((1700000000 - 10800) % 4294967296)
        ((1700000000 + 604800) % 4294967296)
        { cache := [], flight := [] }).res.toOption.map RRSIG.expiration)
      = some ((1700000000 + 604800) % 4294967296)
    ∧ ((server.signSet cfgW cryW [aRRW] 1700000000 ((1700000000 - 10800) % 4294967296)
        ((1700000000 + 604800) % 4294967296)
        { cache := [], flight := [] }).res.toOption.map (fun g => g.hdr.ttl))
      = some ([aRRW].headD defaultRR).hdr.ttl
    ∧ ((server.signSet cfgW cryW [aRRW] 1700000000 ((1700000000 - 10800) % 4294967296)
        ((1700000000 + 604800) % 4294967296)
        { cache := [], flight := [] }).res.toOption.map RRSIG.origTtl)
      = some (if ([aRRW].headD defaultRR).hdr.rrtype = 16 then 0 else cfgW.ttl) :=
  rrsig_fields cfgW cryW [aRRW] 1700000000 "sigdata"
    { cache := [], flight := [] } rfl rfl rfl

/-- C8: when the result code is success and the authority section holds
exactly one record which is the SOA, `Denial` appends the NODATA NSEC3, whose
owner hash is the qname hash itself and whose next-hashed owner name is that
hash incremented one step; under any other success-shaped authority section
the message is left untouched. -/
theorem nodata_denial (s : Config) (m : Msg) (q : String) (qs : List String)
    (h0 : Hdr) (serial : Nat)
    (hq : m.question = q :: qs) (hrc : m.rcode = 0) :
    (m.ns = [{ hdr := h0, rdata := .soa serial }] →
      server.Denial s m = { m with ns := m.ns ++ [server.NewNSEC3NoData s q] }
      ∧ (server.NewNSEC3NoData s q).hdr.name = s.hashName q ++ "." ++ s.domain
      ∧ RR.nsec3Next (server.NewNSEC3NoData s q)
          = unpackBase32 (byteArith (packBase32 (s.hashName q)) true))
    ∧ (¬ (m.ns.length = 1 ∧ isSOA (m.ns.headD defaultRR) = true) →
      server.Denial s m = m) := by
  constructor
  · intro hns
    refine ⟨?_, rfl, rfl⟩
    simp [server.Denial, hrc, hq, hns, isSOA]
  · intro hshape
    have hcond : ¬ (m.ns.length = 1 ∧ isSOA (m.ns.headD defaultRR) = true) := hshape
    simp [server.Denial, hrc, hcond]
    intro h1 h2
    exact absurd ⟨h1, by simpa [List.headD_eq_head?_getD] using h2⟩ hcond

/-- Witness for C8 on a success reply whose authority section is one SOA. -/
theorem nodata_denial_witness :
    server.Denial cfgW
        { rcode := 0, question := ["x.example.com."],
          answer := [],
          ns := [{ hdr := { name := "example.com.", rrtype := 6, cls := 1, ttl := 60 },
                   rdata := .soa 100 }],
          extra := [], truncated := false }
      = { rcode := 0, question := ["x.example.com."],
          answer := [],
          ns := [{ hdr := { name := "example.com.", rrtype := 6, cls := 1, ttl := 60 },
                   rdata := .soa 100 }]
                ++ [server.NewNSEC3NoData cfgW "x.example.com."],
          extra := [], truncated := false }
    ∧ (server.NewNSEC3NoData cfgW "x.example.com.").hdr.name
        = cfgW.hashName "x.example.com." ++ "." ++ cfgW.domain
    ∧ RR.nsec3Next (server.NewNSEC3NoData cfgW "x.example.com.")
        = unpackBase32 (byteArith (packBase32 (cfgW.hashName "x.example.com.")) true) :=
  (nodata_denial cfgW
      { rcode := 0, question := ["x.example.com."], answer := [],
        ns := [{ hdr := { name := "example.com.", rrtype := 6, cls := 1, ttl := 60 },
                 rdata := .soa 100 }],
        extra := [], truncated := false }
      "x.example.com." [] { name := "example.com.", rrtype := 6, cls := 1, ttl := 60 } 100
      rfl rfl).1 rfl

/-- C1 counterexample: at a concrete configuration and qname, the next-hashed
owner name of the NXDOMAIN denial NSEC3 is not the qname hash incremented two
steps (it is the hash incremented one step: the owner hash, one below the
qname hash, incremented two steps). -/
theorem nxdomain_next_not_two_steps :
    RR.nsec3Next (server.NewNSEC3NameError cfgW "nothere.example.com.")
      ≠ unpackBase32 (byteArith (byteArith
          (packBase32 (cfgW.hashName "nothere.example.com.")) true) true) := by
  decide

/-- C1 (amended): on NXDOMAIN, `Denial` appends the synthesized NSEC3 whose
owner hash is the qname hash decremented one step and whose next-hashed owner
name is the qname hash incremented ONE step (the owner value incremented by
two steps) for any hash value other than all-zero, followed by the
precomputed closest-encloser and wildcard-denial records, each unless its
owner name equals the synthesized owner name. -/
theorem nxdomain_denial (s : Config) (m : Msg) (q : String) (qs : List String)
    (hq : m.question = q :: qs) (hrc : m.rcode = 3)
    (hby : ∀ x ∈ packBase32 (s.hashName q), x < 256)
    (hnz : packBase32 (s.hashName q)
             ≠ List.replicate (packBase32 (s.hashName q)).length 0) :
    server.Denial s m =
      { m with ns :=
          ((m.ns ++ [server.NewNSEC3NameError s q])
            ++ (if (server.NewNSEC3NameError s q).hdr.name ≠ s.closestEncloser.hdr.name
                then [s.closestEncloser] else []))
            ++ (if (server.NewNSEC3NameError s q).hdr.name ≠ s.denyWildcard.hdr.name
                then [s.denyWildcard] else []) }
    ∧ (server.NewNSEC3NameError s q).hdr.name
        = strToLower (unpackBase32 (byteArith (packBase32 (s.hashName q)) false))
            ++ "." ++ s.domain
    ∧ RR.nsec3Next (server.NewNSEC3NameError s q)
        = unpackBase32 (byteArith (packBase32 (s.hashName q)) true) := by
  refine ⟨?_, rfl, ?_⟩
  · by_cases hce : (server.NewNSEC3NameError s q).hdr.name = s.closestEncloser.hdr.name <;>
      by_cases hdw : (server.NewNSEC3NameError s q).hdr.name = s.denyWildcard.hdr.name
    · have hcd : s.closestEncloser.hdr.name = s.denyWildcard.hdr.name := hce.symm.trans hdw
      simp [server.Denial, hrc, hq, hce, hdw, hcd]
    · have hcd : ¬ s.closestEncloser.hdr.name = s.denyWildcard.hdr.name :=
        fun h => hdw (hce.trans h)
      simp [server.Denial, hrc, hq, hce, hdw, hcd]
    · have hcd : ¬ s.denyWildcard.hdr.name = s.closestEncloser.hdr.name :=
        fun h => hce (hdw.trans h)
      simp [server.Denial, hrc, hq, hce, hdw, hcd]
    · simp [server.Denial, hrc, hq, hce, hdw]
  · show unpackBase32 (byteArith (byteArith
        (byteArith (packBase32 (s.hashName q)) false) true) true)
      = unpackBase32 (byteArith (packBase32 (s.hashName q)) true)
    rw [byteArith_dec_inc (packBase32 (s.hashName q)) hby hnz]

/-- Witness for C1's amended theorem at a concrete configuration and qname. -/
theorem nxdomain_denial_witness :
    server.Denial cfgW
        { rcode := 3, question := ["nothere.example.com."], answer := [],
          ns := [], extra := [], truncated := false } =
      { rcode := 3, question := ["nothere.example.com."], answer := [],
        ns := (([] ++ [server.NewNSEC3NameError cfgW "nothere.example.com."])
            ++ (if (server.NewNSEC3NameError cfgW "nothere.example.com.").hdr.name
                    ≠ cfgW.closestEncloser.hdr.name
                then [cfgW.closestEncloser] else []))
            ++ (if (server.NewNSEC3NameError cfgW "nothere.example.com.").hdr.name
                    ≠ cfgW.denyWildcard.hdr.name
                then [cfgW.denyWildcard] else []),
        extra := [], truncated := false }
    ∧ (server.NewNSEC3NameError cfgW "nothere.example.com.").hdr.name
        = strToLower (unpackBase32 (byteArith
            (packBase32 (cfgW.hashName "nothere.example.com.")) false))
            ++ "." ++ cfgW.domain
    ∧ RR.nsec3Next (server.NewNSEC3NameError cfgW "nothere.example.com.")
        = unpackBase32 (byteArith (packBase32 (cfgW.hashName "nothere.example.com.")) true) :=
  nxdomain_denial cfgW
    { rcode := 3, question := ["nothere.example.com."], answer := [],
      ns := [], extra := [], truncated := false }
    "nothere.example.com." [] rfl rfl (by decide) (by decide)

/-- A concrete cached signature valid around Unix time 1700000000. -/
def sigW : RRSIG :=
  { hdr := { name := "svc.example.com.", rrtype := 46, cls := 1, ttl := 3600 },
    typeCovered := 1, algorithm := 8, origTtl := 60, expiration := 1700604800,
    inception := 1699989200, keyTag := 12345, signerName := "example.com.",
    signature := "sigdata" }

/-- Witness for C5: a fresh enough cached signature is returned without
signing or single-flight. -/
theorem signSet_cache_validity_witness :
    server.signSet cfgW cryW [aRRW] 1700000000 0 0
        { cache := [(sigCache.key [aRRW], sigW)], flight := [] } =
      { res := .ok sigW,
        st := { cache := [(sigCache.key [aRRW], sigW)], flight := [] },
        ranSign := false, usedFlight := false } :=
  (signSet_cache_validity cfgW cryW [aRRW] 1700000000 0 0
      { cache := [(sigCache.key [aRRW], sigW)], flight := [] } sigW rfl).1 (by decide)

/-- Witness for C7: a failing cryptographic core leaves the state untouched
and the failed group contributes nothing to the per-section loop. -/
theorem sign_failure_isolated_witness :
    server.signSet cfgW cryFail [aRRW] 1700000000 0 0 { cache := [], flight := [] } =
      { res := .error "sign error", st := { cache := [], flight := [] },
        ranSign := true, usedFlight := true }
    ∧ signGroups cfgW cryFail 1700000000 0 0 [[aRRW]] { cache := [], flight := [] }
        = signGroups cfgW cryFail 1700000000 0 0 [] { cache := [], flight := [] } :=
  sign_failure_isolated cfgW cryFail [aRRW] "sign error" 1700000000 0 0
    { cache := [], flight := [] } [] rfl rfl rfl (by decide)

/-- Witness for C3 at a concrete A record set and Unix time 1700000000. -/
theorem signSet_twice_cached_witness :
    (server.signSet cfgW cryW [aRRW] 1700000000 ((1700000000 - 10800) % 4294967296)
        ((1700000000 + 604800) % 4294967296) { cache := [], flight := [] }).res
      = .ok (dnsSignedRRSIG cfgW [aRRW] ((1700000000 - 10800) % 4294967296)
               ((1700000000 + 604800) % 4294967296) "sigdata")
    ∧ (server.signSet cfgW cryW [aRRW] 1700000000 ((1700000000 - 10800) % 4294967296)
        ((1700000000 + 604800) % 4294967296) { cache := [], flight := [] }).ranSign = true
    ∧ (server.signSet cfgW cryW [aRRW] 1700000000 ((1700000000 - 10800) % 4294967296)
        ((1700000000 + 604800) % 4294967296) { cache := [], flight := [] }).usedFlight = true
    ∧ server.signSet cfgW cryW [aRRW] 1700000000 0 0
        (server.signSet cfgW cryW [aRRW] 1700000000 ((1700000000 - 10800) % 4294967296)
          ((1700000000 + 604800) % 4294967296) { cache := [], flight := [] }).st =
      { res := (server.signSet cfgW cryW [aRRW] 1700000000 ((1700000000 - 10800) % 4294967296)
                  ((1700000000 + 604800) % 4294967296) { cache := [], flight := [] }).res,
        st := (server.signSet cfgW cryW [aRRW] 1700000000 ((1700000000 - 10800) % 4294967296)
                  ((1700000000 + 604800) % 4294967296) { cache := [], flight := [] }).st,
        ranSign := false, usedFlight := false } :=
  signSet_twice_cached cfgW cryW [aRRW] 1700000000 1700000000 0 0 "sigdata"
    { cache := [], flight := [] } (by decide) (by decide) (by decide) (by decide)
    rfl rfl rfl
